import Mathlib

/-!
Verification of the solid-docs-next navigation component and of the
hierarchical route-resolution engine described by its documentation.

Part 1 embeds the executable TypeScript of the repository
(`src/components/nav/Nav.tsx`, `src/components/context/PageStateContext.tsx`)
as Lean functions.  Part 2 models the route resolver, route-table builder and
reload classification, which the repository describes only in documentation
prose; those definitions are marked `Modelled from the spec:`.
-/

/-! ## String helpers (kernel-computable counterparts of JS string methods) -/

/-- Character-list core of `strStartsWith`: does the second list occur at the
head of the first? -/
def startsWithChars : List Char → List Char → Bool
  | _, [] => true
  | [], _ :: _ => false
  | c :: cs, d :: ds => c == d && startsWithChars cs ds

/-- Models JS `String.prototype.startsWith`: `strStartsWith s pat` is true iff
`pat` occurs at the start of `s`. -/
def strStartsWith (s pat : String) : Bool :=
  startsWithChars s.data pat.data

/-! ## Embedding of `src/components/nav/Nav.tsx` -/

/-- A node of the display tree handed to `SectionsNavIterate`: the union type
`SECTION_PAGE | SECTION_LEAF_PAGE` of `Nav.tsx` (a leaf page has a `link`, a
section page has nested `pages`). -/
inductive NavPage where
  | leaf (name : String) (link : String)
  | sect (name : String) (pages : List NavPage)

/-- The `isLeafPage` type guard of `SectionsNavIterate` (`"link" in page`). -/
def isLeafPage : NavPage → Bool
  | .leaf _ _ => true
  | .sect _ _ => false

/-- The comparison `location.pathname == page?.link` of `Nav.tsx` (false on a
section page, whose `link` is absent). -/
def pageLinkEq (pathname : String) : NavPage → Bool
  | .leaf _ link => pathname == link
  | .sect _ _ => false

/-- The `isCollapsed` arrow function of `SectionsNavIterate` (`Nav.tsx` lines
259-263): a section starts collapsed unless some direct page is a leaf whose
link equals the current pathname. -/
def isCollapsed (pathname : String) (pages : List NavPage) : Bool :=
  !(pages.any fun page => isLeafPage page && pageLinkEq pathname page)

/-- The expanded-section set computed by the navigation tree: a section of the
display tree is expanded by default iff `isCollapsed` (the value passed as
`startCollapsed`) is false for its pages. -/
def computeExpanded (displayTree : List (String × List NavPage)) (currentPath : String) :
    List String :=
  (displayTree.filter fun s => !(isCollapsed currentPath s.2)).map (fun s => s.1)

/-- Pages of the `Guides` section in the display tree of claim C1. -/
def guidesPages : List NavPage :=
  [.leaf "tutorial" "/tutorial", .leaf "how-to-guides" "/how-to-guides"]

/-- Pages of the `Reference` section in the display tree of claim C1. -/
def referencePages : List NavPage :=
  [.leaf "concepts" "/concepts", .leaf "api-reference" "/api-reference"]

/-- The two-section display tree of claim C1. -/
def exampleSections : List (String × List NavPage) :=
  [("Guides", guidesPages), ("Reference", referencePages)]

/-- One entry of `allStartSections` in `Nav.tsx`: the combined link and title
of a start-docs subsection. -/
structure StartEntry where
  link : String
  title : String
deriving DecidableEq

/-- A subsection of `START_SECTIONS` (`header`, `link`, optional nested
`subsections`, themselves header-link pairs; the nested level is never read by
`allStartSections`). -/
structure StartSubsection where
  header : String
  link : String
  subs : List (String × String)
deriving DecidableEq

/-- A top-level entry of `START_SECTIONS` in `Nav.tsx`. -/
structure StartSection where
  header : String
  link : String
  subsections : List StartSubsection
deriving DecidableEq

/-- The `START_SECTIONS` constant of `Nav.tsx` (lines 86-161). -/
def START_SECTIONS : List StartSection :=
  [⟨"Getting started", "/start/getting-started",
    [⟨"What is SolidStart?", "/what-is-solidstart", []⟩,
     ⟨"Project setup", "/project-setup", []⟩]⟩,
   ⟨"Core concepts", "/start/core-concepts",
    [⟨"Routing & pages", "/routing-and-pages", []⟩,
     ⟨"CSS and styling", "/css-and-styling", []⟩,
     ⟨"Static assets", "/static-assets", []⟩,
     ⟨"Head & metadata", "/head-and-metadata", []⟩,
     ⟨"Data Loading", "/data-loading", []⟩,
     ⟨"Actions & Data Writes", "/actions", []⟩,
     ⟨"Resource Routes", "/resource-routes", []⟩,
     ⟨"State management", "/state-management", []⟩,
     ⟨"Request lifecycle", "/request-lifecycle", []⟩,
     ⟨"Environments & deployment", "/environments-and-deployment", []⟩]⟩,
   ⟨"Advanced concepts", "/start/advanced",
    [⟨"Streaming", "/streaming", []⟩,
     ⟨"Caching", "/caching", []⟩,
     ⟨"API routes", "/api-routes", []⟩,
     ⟨"Usage with databases", "/databases", []⟩,
     ⟨"Middleware", "/middleware", []⟩,
     ⟨"Authentication", "/authentication", []⟩,
     ⟨"Testing", "/testing", []⟩,
     ⟨"Internationalization", "/i18n", []⟩,
     ⟨"Static site generation", "/ssg", []⟩,
     ⟨"SEO", "/seo", []⟩]⟩,
   ⟨"API", "/start/api",
    [⟨"Error boundary", "/error-boundary", []⟩,
     ⟨"Files", "/files", []⟩,
     ⟨"Forms", "/forms", []⟩,
     ⟨"Document", "/document",
      [("<Html />", "/Html"), ("Head", "/Head"), ("Body", "/Body"),
       ("Title", "/Title"), ("Meta", "/Meta"), ("Link", "/Link"),
       ("Script", "/Script"), ("Style", "/Style"), ("Stylesheet", "/Stylesheet")]⟩,
     ⟨"Router", "/router", [("useParams", "/useParams")]⟩,
     ⟨"Server", "/server", []⟩,
     ⟨"Session", "/session", []⟩]⟩]

/-- The flattened `allStartSections` list of `Nav.tsx` (lines 163-171): for
each section and each of its direct subsections, the combined link
`section.link + subsection.link` and title `section.header — subsection.header`,
in declaration order. -/
def allStartSections : List StartEntry :=
  START_SECTIONS.foldl
    (fun acc sec =>
      acc ++ sec.subsections.map
        (fun sub => ⟨sec.link ++ sub.link, sec.header ++ " — " ++ sub.header⟩))
    []

/-- The `getStartSection` function of `Nav.tsx` (lines 173-181): find the first
entry whose link is a prefix of `pathname` (JS `findIndex` with `startsWith`);
return `none` when there is no such entry (`-1`) or it is the last entry;
otherwise return the following entry. -/
def getStartSection (pathname : String) : Option StartEntry :=
  match allStartSections.findIdx? (fun sec => strStartsWith pathname sec.link) with
  | none => none
  | some i =>
      if i = allStartSections.length - 1 then none
      else allStartSections[i + 1]?

/-- The `createEffect` of `Nav` (`Nav.tsx` lines 20-25): given the previous
pathname accumulator (`none` on the first run), the current pathname and the
current `showMenu` signal, return the new `showMenu` value and the new
accumulator.  `showMenu` is forced to `false` exactly when the pathname
differs from the accumulator. -/
def menuEffectStep (prevPath : Option String) (pathname : String) (showMenu : Bool) :
    Bool × Option String :=
  (if prevPath ≠ some pathname then false else showMenu, some pathname)

/-! ## Embedding of `src/components/context/PageStateContext.tsx` -/

/-- The `Section` record type of `PageStateContext.tsx`. -/
structure PageSection where
  title : String
  href : String
deriving DecidableEq

/-- The store of `PageStateProvider`: the collected `sections` and the stored
`path`. -/
structure PageState where
  sections : List PageSection
  path : String
deriving DecidableEq

/-- The `addSection` operation of `PageStateProvider` (lines 34-36): append one
entry at the end of `sections` (`[...sections, { title, href }]`). -/
def addSection (s : PageState) (title href : String) : PageState :=
  { s with sections := s.sections ++ [⟨title, href⟩] }

/-- The `createEffect` of `PageStateProvider` (lines 39-43): on a pathname
change, reset `sections` to the empty list and store the new pathname. -/
def pathChangeEffect (_s : PageState) (pathname : String) : PageState :=
  { sections := [], path := pathname }

/-- An operation performed against the page state during one pathname's
tenure (only `addSection` mutates the sections list). -/
inductive PageOp where
  | add (title href : String)
deriving DecidableEq

/-- Apply one operation to the page state. -/
def applyOp (s : PageState) : PageOp → PageState
  | .add t h => addSection s t h

/-- Run a sequence of operations against the page state. -/
def runOps (s : PageState) : List PageOp → PageState
  | [] => s
  | op :: rest => runOps (applyOp s op) rest

/-- The section an operation contributes. -/
def opSection : PageOp → PageSection
  | .add t h => ⟨t, h⟩

/-! ## Route resolution engine

The repository describes this engine only in documentation prose (the routing
chapter and the data-loading chapter); no implementing code is under `src/`.
The definitions below are therefore modelled from the specification. -/

/-- Modelled from the spec: the `RouteSegment` data model of section 3 — one
path fragment specification, of kind Static (literal), Dynamic (named),
Splat (named catch-all), Index, or Pathless. -/
inductive RouteSegment where
  | stat (lit : String)
  | dyn (nm : String)
  | splat (nm : String)
  | idx
  | pathless
deriving DecidableEq

mutual
/-- Modelled from the spec: a `RouteNode` — its matching segment, a leaf
marker (does this node itself render, vs. pure layout), and an ordered set of
child nodes. -/
inductive RouteNode : Type where
  | mk (seg : RouteSegment) (isLeaf : Bool) (children : RouteForest)
/-- Modelled from the spec: the ordered children of a `RouteNode`. -/
inductive RouteForest : Type where
  | nil
  | cons (hd : RouteNode) (tl : RouteForest)
end

mutual
/-- Decidable equality for `RouteNode` (used to express RouteNode identity in
reload classification). -/
def nodeDecEq : (a b : RouteNode) → Decidable (a = b)
  | .mk s1 l1 c1, .mk s2 l2 c2 =>
    match decEq s1 s2, decEq l1 l2, forestDecEq c1 c2 with
    | .isTrue h1, .isTrue h2, .isTrue h3 => .isTrue (by rw [h1, h2, h3])
    | .isFalse h1, _, _ => .isFalse (by intro h; cases h; exact h1 rfl)
    | _, .isFalse h2, _ => .isFalse (by intro h; cases h; exact h2 rfl)
    | _, _, .isFalse h3 => .isFalse (by intro h; cases h; exact h3 rfl)
/-- Decidable equality for `RouteForest`. -/
def forestDecEq : (a b : RouteForest) → Decidable (a = b)
  | .nil, .nil => .isTrue rfl
  | .nil, .cons _ _ => .isFalse (by intro h; cases h)
  | .cons _ _, .nil => .isFalse (by intro h; cases h)
  | .cons h1 t1, .cons h2 t2 =>
    match nodeDecEq h1 h2, forestDecEq t1 t2 with
    | .isTrue e1, .isTrue e2 => .isTrue (by rw [e1, e2])
    | .isFalse e1, _ => .isFalse (by intro h; cases h; exact e1 rfl)
    | _, .isFalse e2 => .isFalse (by intro h; cases h; exact e2 rfl)
end

instance : DecidableEq RouteNode := nodeDecEq

instance : DecidableEq RouteForest := forestDecEq

/-- Modelled from the spec: one entry of the matched ancestor chain — a
RouteNode reference together with the parameter bindings made by that node
itself. -/
structure ChainEntry where
  node : RouteNode
  own : List (String × String)
deriving DecidableEq

/-- Modelled from the spec: a `MatchResult` — the root-to-leaf ancestor chain,
the aggregated parameter map, and the unmatched remainder (empty on
success). -/
structure MatchResult where
  chain : List ChainEntry
  params : List (String × String)
  remainder : List String
deriving DecidableEq

/-- Modelled from the spec: matching precedence at each level, highest to
lowest specificity: Static > Dynamic > Splat > Index.  The spec leaves the
rank of Pathless children unspecified; they are tried last.  Lower rank is
tried first. -/
def rankOf : RouteSegment → Nat
  | .stat _ => 0
  | .dyn _ => 1
  | .splat _ => 2
  | .idx => 3
  | .pathless => 4

/-- Prepend a matched node (with its own bindings) onto a deeper result;
deeper bindings are unioned after the node's own, and names are unique per
chain by the builder-time invariant. -/
def extendResult (n : RouteNode) (own : List (String × String)) (res : MatchResult) :
    MatchResult :=
  { chain := ⟨n, own⟩ :: res.chain, params := own ++ res.params,
    remainder := res.remainder }

mutual
/-- Modelled from the spec: match one node against the remaining segments
(section 4.2).  Static consumes one segment on exact literal equality; Dynamic
consumes any one segment of length ≥ 1 and binds its name; Splat consumes the
whole remainder (possibly empty), binds the slash-joined value, and terminates
descent; Index succeeds exactly when no segments remain; Pathless consumes
nothing and is retained in the chain. -/
def resolveNode : RouteNode → List String → Option MatchResult
  | .mk (.stat lit) lf ch, s :: rest =>
    if s = lit then (descend lf ch rest).map (extendResult (.mk (.stat lit) lf ch) [])
    else none
  | .mk (.stat _) _ _, [] => none
  | .mk (.dyn nm) lf ch, s :: rest =>
    if 1 ≤ s.length then
      (descend lf ch rest).map (extendResult (.mk (.dyn nm) lf ch) [(nm, s)])
    else none
  | .mk (.dyn _) _ _, [] => none
  | .mk (.splat nm) lf ch, segs =>
    some { chain := [⟨.mk (.splat nm) lf ch, [(nm, String.intercalate "/" segs)]⟩],
           params := [(nm, String.intercalate "/" segs)], remainder := [] }
  | .mk .idx lf ch, [] =>
    some { chain := [⟨.mk .idx lf ch, []⟩], params := [], remainder := [] }
  | .mk .idx _ _, _ :: _ => none
  | .mk .pathless lf ch, segs =>
    (descend lf ch segs).map (extendResult (.mk .pathless lf ch) [])
termination_by n _ => (sizeOf n, 0)

/-- Modelled from the spec: after a node consumed its segments, descend into
its children in specificity order, backtracking across candidates (section
4.3); when no child consumes the rest and the cursor is at end-of-path on a
rendering (leaf) node, the node itself terminates the chain. -/
def descend (lf : Bool) (ch : RouteForest) (rest : List String) : Option MatchResult :=
  match tryPass 0 ch rest <|> tryPass 1 ch rest <|> tryPass 2 ch rest <|>
        tryPass 3 ch rest <|> tryPass 4 ch rest with
  | some r => some r
  | none =>
      if rest.isEmpty && lf then some { chain := [], params := [], remainder := [] }
      else none
termination_by (sizeOf ch, 1)

/-- Modelled from the spec: one specificity pass over the children — try, in
declaration order (the tie-break for equally ranked siblings), every child of
the given rank, taking the first success. -/
def tryPass (r : Nat) (ch : RouteForest) (segs : List String) : Option MatchResult :=
  match ch with
  | .nil => none
  | .cons (.mk sg lf2 ch2) tl =>
    (if rankOf sg = r then resolveNode (.mk sg lf2 ch2) segs else none) <|>
      tryPass r tl segs
termination_by (sizeOf ch, 0)
end

/-- Split a character list at `/` boundaries, accumulating the current
segment in reverse. -/
def splitSegs : List Char → List Char → List String
  | [], cur => [String.mk cur.reverse]
  | c :: cs, cur =>
    if c = '/' then String.mk cur.reverse :: splitSegs cs []
    else splitSegs cs (c :: cur)

/-- Modelled from the spec: normalize a path into its sequence of non-empty
segments (leading/trailing slashes stripped; the root path yields the empty
sequence). -/
def normalizePath (path : String) : List String :=
  (splitSegs path.data []).filter (fun s => s ≠ "")

/-- Modelled from the spec: `resolve(tree, path)` — normalize the path and run
the backtracking descent from the root; `none` is the `NotFound` result
variant (a normal value, not an exception). -/
def resolve (tree : RouteNode) (path : String) : Option MatchResult :=
  resolveNode tree (normalizePath path)

/-! ## Route table builder (modelled from the spec, sections 4.1 and 7) -/

/-- Modelled from the spec: the build-time error taxonomy.  `DuplicateRoute`
is the only error category that exists at build time. -/
inductive BuildError where
  | DuplicateRoute
deriving DecidableEq

/-- Modelled from the spec: one route declaration — a slash-separated path in
source order and a leaf flag (the opaque handler payload is irrelevant to
resolution and omitted). -/
structure RouteDecl where
  path : String
  isLeaf : Bool
deriving DecidableEq

/-- Modelled from the spec: parse one declared segment — `[...name]` is a
Splat, `[name]` is Dynamic, anything else is a Static literal. -/
def parseSeg (s : String) : RouteSegment :=
  match s.data with
  | '[' :: '.' :: '.' :: '.' :: rest => .splat (String.mk rest.dropLast)
  | '[' :: rest => .dyn (String.mk rest.dropLast)
  | _ => .stat s

/-- Modelled from the spec: the normalized segment list of one declaration. -/
def segsOf (d : RouteDecl) : List RouteSegment :=
  (normalizePath d.path).map parseSeg

/-- Modelled from the spec: the parameter names bound along one declaration's
chain of ancestors (its Dynamic and Splat segments, in order). -/
def paramNames : List RouteSegment → List String :=
  List.filterMap fun sg =>
    match sg with
    | .dyn nm => some nm
    | .splat nm => some nm
    | _ => none

/-- Does a list contain some element twice? -/
def hasDupElem [DecidableEq α] : List α → Bool
  | [] => false
  | x :: xs => xs.contains x || hasDupElem xs

/-- Build the single chain of fresh nodes for the tail of a declaration. -/
def mkChain (lf : Bool) : RouteSegment → List RouteSegment → RouteNode
  | s, [] => .mk s lf .nil
  | s, s2 :: rest => .mk s false (.cons (mkChain lf s2 rest) .nil)

/-- Modelled from the spec: insert one declaration's segment list into the
forest, sharing existing nodes with equal segments and appending fresh
siblings at the end (stable input order). -/
def insertInto (lf : Bool) : List RouteSegment → RouteForest → RouteForest
  | [], f => f
  | s :: rest, .nil => .cons (mkChain lf s rest) .nil
  | s :: rest, .cons (.mk sg l ch) tl =>
    if sg = s then .cons (.mk sg (l || (rest.isEmpty && lf)) (insertInto lf rest ch)) tl
    else .cons (.mk sg l ch) (insertInto lf (s :: rest) tl)

/-- Modelled from the spec: fold all declarations, in stable input order, into
one forest. -/
def buildForest (decls : List RouteDecl) : RouteForest :=
  decls.foldl (fun f d => insertInto d.isLeaf (segsOf d) f) .nil

/-- Modelled from the spec: the Route Table Builder (section 4.1).  When two
declarations share an identical normalized path, or one declaration's chain
binds the same parameter name at two ancestors, construction aborts with
`DuplicateRoute` — before any tree exists, so before any resolve call is
possible; otherwise the immutable tree is produced, wrapped in a pathless
root. -/
def buildTable (decls : List RouteDecl) : Except BuildError RouteNode :=
  if hasDupElem (decls.map segsOf) ||
     decls.any (fun d => hasDupElem (paramNames (segsOf d))) then
    .error .DuplicateRoute
  else
    .ok (.mk .pathless false (buildForest decls))

/-! ## Reload classification (modelled from the spec, section 4.3) -/

/-- Modelled from the spec: the derived reload classification of one route
node in the new chain. -/
inductive Reload where
  | reuse
  | refetch
deriving DecidableEq

/-- Modelled from the spec: a node at depth `i` of the new chain is
reused-without-refetch iff both chains have an entry at depth `i`, the entries
are the same RouteNode identity, and the node's own bound parameter values are
unchanged; otherwise it must refetch. -/
def classifyAt (prev next : MatchResult) (i : Nat) : Reload :=
  match prev.chain[i]?, next.chain[i]? with
  | some p, some n => if p.node = n.node ∧ p.own = n.own then .reuse else .refetch
  | _, _ => .refetch

/-- Modelled from the spec: the cross-cutting inputs of one navigation — the
pathname, the query string, and whether the navigation was flagged as
action-triggered. -/
structure NavRequest where
  pathname : String
  query : String
  isAction : Bool
deriving DecidableEq

/-- The pathname portion of a URL (everything before the first `?`). -/
def pathOf (url : String) : String :=
  String.mk (url.data.takeWhile (fun c => c ≠ '?'))

/-- The query-string portion of a URL (everything after the first `?`). -/
def queryOf (url : String) : String :=
  String.mk ((url.data.dropWhile (fun c => c ≠ '?')).drop 1)

/-- Build the `NavRequest` of a URL together with its action flag. -/
def requestOf (url : String) (isAction : Bool) : NavRequest :=
  ⟨pathOf url, queryOf url, isAction⟩

/-- Modelled from the spec: full navigation-level classification — when the
query string changed or the navigation is action-triggered, the whole new
chain is blanket-invalidated to must-refetch; otherwise the per-node rule
applies. -/
def classifyNav (prevReq newReq : NavRequest) (prev next : MatchResult) (i : Nat) :
    Reload :=
  if prevReq.query ≠ newReq.query ∨ newReq.isAction = true then .refetch
  else classifyAt prev next i

/-! ## Theorems -/

/-- C1 counterexample: in the claim's display tree, the leaf link
`/api-reference` of the `Reference` section is a prefix of the current path
`/api-reference/signals`, yet the expanded set computed by the code does not
contain `Reference` — `isCollapsed` compares links by string equality, not by
prefix. -/
theorem computeExpanded_not_prefix_based :
    strStartsWith "/api-reference/signals" "/api-reference" = true ∧
    "Reference" ∉ computeExpanded exampleSections "/api-reference/signals" := by
  decide

/-- C1 amended: a section of the display tree is expanded by default iff its
direct pages contain at least one leaf item whose declared link is EQUAL to
the current path (the code checks equality at one level, not a prefix over the
subtree); in particular, on the claim's display tree with current path
`/api-reference/signals` the computed expanded set is empty, containing
neither `Reference` nor `Guides`. -/
theorem computeExpanded_link_equality :
    (∀ pathname pages, isCollapsed pathname pages = false ↔
        ∃ nm link, NavPage.leaf nm link ∈ pages ∧ link = pathname) ∧
    computeExpanded exampleSections "/api-reference/signals" = [] := by
  constructor
  · intro pathname pages
    constructor
    · intro h
      have h' : pages.any (fun page => isLeafPage page && pageLinkEq pathname page) = true := by
        simpa [isCollapsed] using h
      rcases List.any_eq_true.mp h' with ⟨page, hmem, hp⟩
      cases page with
      | leaf nm link =>
          refine ⟨nm, link, hmem, ?_⟩
          have h2 : pageLinkEq pathname (.leaf nm link) = true := by
            have := hp
            simp only [Bool.and_eq_true] at this
            exact this.2
          have h3 : pathname = link := by simpa [pageLinkEq] using h2
          exact h3.symm
      | sect nm ps => simp [isLeafPage] at hp
    · rintro ⟨nm, link, hmem, rfl⟩
      have h' : pages.any (fun page => isLeafPage page && pageLinkEq link page) = true :=
        List.any_eq_true.mpr ⟨.leaf nm link, hmem, by simp [isLeafPage, pageLinkEq]⟩
      simpa [isCollapsed] using h'
  · decide

/-- C8: the `createEffect` of `Nav` forces `showMenu` to `false` on every
transition where the pathname differs from the previous one, and leaves
`showMenu` unchanged when the pathname is unchanged. -/
theorem menuEffect_spec (prevPath : Option String) (pathname : String) (showMenu : Bool) :
    (prevPath ≠ some pathname → (menuEffectStep prevPath pathname showMenu).1 = false) ∧
    (prevPath = some pathname → (menuEffectStep prevPath pathname showMenu).1 = showMenu) := by
  constructor
  · intro h
    simp [menuEffectStep, h]
  · intro h
    simp [menuEffectStep, h]

/-- C8 witness: a changed pathname closes the menu; an unchanged pathname
leaves it open. -/
theorem menuEffect_spec_witness :
    (menuEffectStep (some "/a") "/b" true).1 = false ∧
    (menuEffectStep (some "/a") "/a" true).1 = true := by
  constructor
  · exact (menuEffect_spec (some "/a") "/b" true).1 (by decide)
  · exact (menuEffect_spec (some "/a") "/a" true).2 rfl

/-- Running operations only appends their sections after the existing ones. -/
theorem runOps_sections (s : PageState) (ops : List PageOp) :
    (runOps s ops).sections = s.sections ++ ops.map opSection := by
  induction ops generalizing s with
  | nil => simp [runOps]
  | cons op rest ih =>
      cases op with
      | add t h => simp [runOps, applyOp, addSection, ih, opSection]

/-- C9: on a pathname change the stored sections list is reset to empty and
the stored path becomes the new pathname; every section present after running
any sequence of `addSection` operations was added during the current
pathname's tenure, in insertion order; and `addSection` appends one entry at
the end, leaving all previous entries unchanged. -/
theorem pageState_reset_spec (s : PageState) (p : String) (ops : List PageOp)
    (t h : String) :
    (pathChangeEffect s p).sections = [] ∧
    (pathChangeEffect s p).path = p ∧
    (runOps (pathChangeEffect s p) ops).sections = ops.map opSection ∧
    (addSection s t h).sections = s.sections ++ [⟨t, h⟩] := by
  refine ⟨rfl, rfl, ?_, rfl⟩
  simp [runOps_sections, pathChangeEffect]

/-- C10: `getStartSection` returns `none` when no entry's link is a prefix of
the pathname, returns `none` when the first prefix-matching entry is the last
entry, and otherwise returns the entry immediately following the first
prefix-matching entry in declaration order. -/
theorem getStartSection_spec (pathname : String) :
    ((∀ e ∈ allStartSections, strStartsWith pathname e.link = false) →
        getStartSection pathname = none) ∧
    (∀ i (hi : i < allStartSections.length),
        strStartsWith pathname (allStartSections.get ⟨i, hi⟩).link = true →
        (∀ j (hj : j < i), strStartsWith pathname
            (allStartSections.get ⟨j, Nat.lt_trans hj hi⟩).link = false) →
        ((i = allStartSections.length - 1 → getStartSection pathname = none) ∧
         (i ≠ allStartSections.length - 1 →
            i + 1 < allStartSections.length ∧
              getStartSection pathname = allStartSections[i + 1]?))) := by
  constructor
  · intro h
    have hfind : allStartSections.findIdx? (fun sec => strStartsWith pathname sec.link) = none :=
      List.findIdx?_eq_none_iff.mpr h
    simp [getStartSection, hfind]
  · intro i hi hmatch hfirst
    have hfind : allStartSections.findIdx? (fun sec => strStartsWith pathname sec.link) = some i := by
      rw [List.findIdx?_eq_some_iff_getElem]
      refine ⟨hi, by simpa using hmatch, ?_⟩
      intro j hji
      simpa using hfirst j hji
    constructor
    · intro hlast
      simp [getStartSection, hfind, hlast]
    · intro hne
      have hlt : i + 1 < allStartSections.length := by
        have h28 : allStartSections.length = 29 := by decide
        omega
      exact ⟨hlt, by simp [getStartSection, hfind, hne]⟩

/-- C10 witness: on the pathname equal to the first flattened entry's link,
`getStartSection` returns the second flattened entry. -/
theorem getStartSection_spec_witness :
    0 + 1 < allStartSections.length ∧
      getStartSection "/start/getting-started/what-is-solidstart" =
        allStartSections[0 + 1]? :=
  ((getStartSection_spec "/start/getting-started/what-is-solidstart").2 0 (by decide)
    (by decide) (fun j hj => absurd hj (Nat.not_lt_zero j))).2 (by decide)

/-- The route tree of claim C2: sibling declarations `/files/mine` (static)
and `/files/[...rest]` (splat) under a pathless root. -/
def filesTree : RouteNode :=
  .mk .pathless false (.cons
    (.mk (.stat "files") false
      (.cons (.mk (.stat "mine") true .nil)
        (.cons (.mk (.splat "rest") true .nil) .nil)))
    .nil)

/-- C2 (spec-modelled): `/files/mine` resolves to a chain ending at the static
node (which differs from the splat node), `/files/a/b/c` resolves to the splat
node binding `rest -> "a/b/c"` (all remaining segments joined with slashes),
and the specificity ranks order Static above Dynamic above Splat above
Index. -/
theorem resolve_splat_precedence :
    resolve filesTree "/files/mine" =
      some { chain := [⟨filesTree, []⟩,
                       ⟨.mk (.stat "files") false
                          (.cons (.mk (.stat "mine") true .nil)
                            (.cons (.mk (.splat "rest") true .nil) .nil)), []⟩,
                       ⟨.mk (.stat "mine") true .nil, []⟩],
             params := [], remainder := [] } ∧
    resolve filesTree "/files/a/b/c" =
      some { chain := [⟨filesTree, []⟩,
                       ⟨.mk (.stat "files") false
                          (.cons (.mk (.stat "mine") true .nil)
                            (.cons (.mk (.splat "rest") true .nil) .nil)), []⟩,
                       ⟨.mk (.splat "rest") true .nil, [("rest", "a/b/c")]⟩],
             params := [("rest", "a/b/c")], remainder := [] } ∧
    (RouteNode.mk (.stat "mine") true .nil) ≠ (.mk (.splat "rest") true .nil) ∧
    (∀ a b c, rankOf (.stat a) < rankOf (.dyn b) ∧ rankOf (.dyn b) < rankOf (.splat c) ∧
      rankOf (.splat c) < rankOf .idx) := by
  refine ⟨?_, ?_, ?_, ?_⟩
  · simp [resolve, resolveNode, descend, tryPass, normalizePath, splitSegs, filesTree,
      rankOf, extendResult]
  · simp [resolve, resolveNode, descend, tryPass, normalizePath, splitSegs, filesTree,
      rankOf, extendResult]
    decide
  · decide
  · intro a b c
    simp [rankOf]

/-- The route tree of claim C3: `/sales` as a parent with an Index child and a
Dynamic child `[id]`. -/
def salesTree : RouteNode :=
  .mk .pathless false (.cons
    (.mk (.stat "sales") false
      (.cons (.mk .idx true .nil) (.cons (.mk (.dyn "id") true .nil) .nil)))
    .nil)

/-- C3 (spec-modelled): `/sales` resolves to a chain ending at the Index child
and `/sales/5` to a chain ending at the Dynamic child with `id -> "5"`; an
Index node succeeds exactly when no segments remain (it is then the terminal
chain element) and fails whenever segments are left unconsumed. -/
theorem resolve_index_spec :
    resolve salesTree "/sales" =
      some { chain := [⟨salesTree, []⟩,
                       ⟨.mk (.stat "sales") false
                          (.cons (.mk .idx true .nil)
                            (.cons (.mk (.dyn "id") true .nil) .nil)), []⟩,
                       ⟨.mk .idx true .nil, []⟩],
             params := [], remainder := [] } ∧
    resolve salesTree "/sales/5" =
      some { chain := [⟨salesTree, []⟩,
                       ⟨.mk (.stat "sales") false
                          (.cons (.mk .idx true .nil)
                            (.cons (.mk (.dyn "id") true .nil) .nil)), []⟩,
                       ⟨.mk (.dyn "id") true .nil, [("id", "5")]⟩],
             params := [("id", "5")], remainder := [] } ∧
    (∀ lf ch, resolveNode (.mk .idx lf ch) [] =
        some { chain := [⟨.mk .idx lf ch, []⟩], params := [], remainder := [] }) ∧
    (∀ lf ch s ss, resolveNode (.mk .idx lf ch) (s :: ss) = none) := by
  refine ⟨?_, ?_, ?_, ?_⟩
  · simp [resolve, resolveNode, descend, tryPass, normalizePath, splitSegs, salesTree,
      rankOf, extendResult]
  · simp [resolve, resolveNode, descend, tryPass, normalizePath, splitSegs, salesTree,
      rankOf, extendResult]
    decide
  · intro lf ch
    simp [resolveNode]
  · intro lf ch s ss
    simp [resolveNode]

/-- The route tree of claim C4: the dynamic declaration `/users/[id]` with no
Index sibling under `/users`. -/
def usersTree : RouteNode :=
  .mk .pathless false (.cons
    (.mk (.stat "users") false (.cons (.mk (.dyn "id") true .nil) .nil))
    .nil)

/-- A non-empty string has length at least one. -/
theorem one_le_length_of_ne_empty (s : String) (h : s ≠ "") : 1 ≤ s.length := by
  cases s with
  | mk data =>
    cases data with
    | nil => exact absurd rfl h
    | cons c cs => simp [String.length]

/-- C4 (spec-modelled): a Dynamic segment accepts any single non-empty
segment with no further validation, binding `id` to it; concretely
`/users/42` binds `id -> "42"`, while `/users` and `/users/` resolve to the
`NotFound` variant `none` — a normal result value, not an exception. -/
theorem resolve_dynamic_spec (seg : String) (h : seg ≠ "") :
    resolveNode usersTree ["users", seg] =
      some { chain :=
              [⟨usersTree, []⟩,
               ⟨.mk (.stat "users") false (.cons (.mk (.dyn "id") true .nil) .nil), []⟩,
               ⟨.mk (.dyn "id") true .nil, [("id", seg)]⟩],
             params := [("id", seg)], remainder := [] } ∧
    resolve usersTree "/users/42" =
      some { chain :=
              [⟨usersTree, []⟩,
               ⟨.mk (.stat "users") false (.cons (.mk (.dyn "id") true .nil) .nil), []⟩,
               ⟨.mk (.dyn "id") true .nil, [("id", "42")]⟩],
             params := [("id", "42")], remainder := [] } ∧
    resolve usersTree "/users" = none ∧
    resolve usersTree "/users/" = none := by
  have hl : 1 ≤ seg.length := one_le_length_of_ne_empty seg h
  have h42 : 1 ≤ ("42" : String).length := by decide
  refine ⟨?_, ?_, ?_, ?_⟩
  · simp [usersTree, resolveNode, descend, tryPass, rankOf, extendResult, hl]
  · simp [resolve, resolveNode, descend, tryPass, normalizePath, splitSegs, usersTree,
      rankOf, extendResult, h42]
  · simp [resolve, resolveNode, descend, tryPass, normalizePath, splitSegs, usersTree,
      rankOf, extendResult]
  · simp [resolve, resolveNode, descend, tryPass, normalizePath, splitSegs, usersTree,
      rankOf, extendResult]

/-- C4 witness: the general statement applied at the concrete segment "42". -/
theorem resolve_dynamic_spec_witness :
    resolveNode usersTree ["users", "42"] =
      some { chain :=
              [⟨usersTree, []⟩,
               ⟨.mk (.stat "users") false (.cons (.mk (.dyn "id") true .nil) .nil), []⟩,
               ⟨.mk (.dyn "id") true .nil, [("id", "42")]⟩],
             params := [("id", "42")], remainder := [] } ∧
    resolve usersTree "/users/42" =
      some { chain :=
              [⟨usersTree, []⟩,
               ⟨.mk (.stat "users") false (.cons (.mk (.dyn "id") true .nil) .nil), []⟩,
               ⟨.mk (.dyn "id") true .nil, [("id", "42")]⟩],
             params := [("id", "42")], remainder := [] } ∧
    resolve usersTree "/users" = none ∧
    resolve usersTree "/users/" = none :=
  resolve_dynamic_spec "42" (by decide)

/-- The route tree of claims about nested dynamic params: the declarations
`/users/[userId]` and `/users/[userId]/projects/[projectId]` (the parameter
names of the repository's documented example). -/
def usersProjectsTree : RouteNode :=
  .mk .pathless false (.cons
    (.mk (.stat "users") false (.cons
      (.mk (.dyn "userId") true (.cons
        (.mk (.stat "projects") false (.cons
          (.mk (.dyn "projectId") true .nil) .nil)) .nil)) .nil))
    .nil)

/-- C5 (spec-modelled): a node of the new chain is classified
reused-without-refetch iff both chains have an entry at that depth, the
entries are the same RouteNode identity, and the node's own bound parameter
values are unchanged; navigating from `/users/1/projects/9` to
`/users/1/projects/10` leaves the `users/[userId]` node (depth 2, bound value
"1" unchanged) reused while the `projects/[projectId]` node (depth 4) must
refetch. -/
theorem reload_per_node_spec :
    (∀ prev next i, classifyAt prev next i = .reuse ↔
        ∃ p n, prev.chain[i]? = some p ∧ next.chain[i]? = some n ∧
          p.node = n.node ∧ p.own = n.own) ∧
    ((resolve usersProjectsTree "/users/1/projects/9").bind fun r1 =>
      (resolve usersProjectsTree "/users/1/projects/10").map fun r2 =>
        (classifyAt r1 r2 2, classifyAt r1 r2 4)) = some (.reuse, .refetch) := by
  constructor
  · intro prev next i
    cases hp : prev.chain[i]? with
    | none => simp [classifyAt, hp]
    | some p =>
      cases hn : next.chain[i]? with
      | none => simp [classifyAt, hp, hn]
      | some n =>
        by_cases hq : p.node = n.node ∧ p.own = n.own
        · simp [classifyAt, hp, hn, hq]
        · simp [classifyAt, hp, hn, hq]
  · have h1 : 1 ≤ ("1" : String).length := by decide
    have h9 : 1 ≤ ("9" : String).length := by decide
    have h10 : 1 ≤ ("10" : String).length := by decide
    simp [resolve, resolveNode, descend, tryPass, normalizePath, splitSegs,
      usersProjectsTree, rankOf, extendResult, classifyAt, h1, h9, h10]

/-- C6 (spec-modelled): whenever the query string changes or the navigation is
flagged as action-triggered, every node of the new chain is classified
must-refetch, regardless of per-node parameter changes; in particular any
navigation from `/a?x=1` to `/a?x=2` blanket-invalidates the whole chain. -/
theorem reload_blanket_spec (prevReq newReq : NavRequest) (prev next : MatchResult)
    (i : Nat) (h : prevReq.query ≠ newReq.query ∨ newReq.isAction = true) :
    classifyNav prevReq newReq prev next i = .refetch ∧
    classifyNav (requestOf "/a?x=1" false) (requestOf "/a?x=2" false) prev next i =
      .refetch := by
  constructor
  · simp [classifyNav, h]
  · have hq : queryOf "/a?x=1" ≠ queryOf "/a?x=2" := by decide
    simp [classifyNav, requestOf, hq]

/-- C6 witness: the blanket rule applied to concrete requests and empty match
results. -/
theorem reload_blanket_spec_witness :
    classifyNav ⟨"/a", "x=1", false⟩ ⟨"/a", "x=2", false⟩ ⟨[], [], []⟩ ⟨[], [], []⟩ 0 =
      .refetch ∧
    classifyNav (requestOf "/a?x=1" false) (requestOf "/a?x=2" false)
      ⟨[], [], []⟩ ⟨[], [], []⟩ 0 = .refetch :=
  reload_blanket_spec ⟨"/a", "x=1", false⟩ ⟨"/a", "x=2", false⟩ ⟨[], [], []⟩ ⟨[], [], []⟩ 0
    (Or.inl (by decide))

/-- A list has a duplicated element exactly when it is not `Nodup`. -/
theorem hasDupElem_iff_not_nodup [DecidableEq α] (l : List α) :
    hasDupElem l = true ↔ ¬ l.Nodup := by
  induction l with
  | nil => simp [hasDupElem]
  | cons x xs ih =>
      simp [hasDupElem, List.nodup_cons, ih]
      tauto

/-- C7 (spec-modelled): when two declarations normalize to an identical path,
or when one declaration's ancestor chain binds the same parameter name twice,
the Route Table Builder produces `BuildError.DuplicateRoute`, aborting before
any tree (and hence any resolve call) exists; `DuplicateRoute` is the only
build-time error category, and two declarations both normalizing to
`/admin/settings` trigger it. -/
theorem buildTable_duplicate_spec (decls : List RouteDecl)
    (h : ¬ (decls.map segsOf).Nodup ∨ ∃ d ∈ decls, ¬ (paramNames (segsOf d)).Nodup) :
    buildTable decls = .error .DuplicateRoute ∧
    (∀ ds e, buildTable ds = .error e → e = .DuplicateRoute) ∧
    buildTable [⟨"/admin/settings", true⟩, ⟨"admin/settings/", true⟩] =
      .error .DuplicateRoute := by
  refine ⟨?_, ?_, rfl⟩
  · cases h with
    | inl hdup =>
        have hb : hasDupElem (decls.map segsOf) = true :=
          (hasDupElem_iff_not_nodup _).mpr hdup
        simp [buildTable, hb]
    | inr hdup =>
        rcases hdup with ⟨d, hd, hnd⟩
        have hb : (decls.any fun d => hasDupElem (paramNames (segsOf d))) = true :=
          List.any_eq_true.mpr ⟨d, hd, (hasDupElem_iff_not_nodup _).mpr hnd⟩
        simp [buildTable, hb]
  · intro ds e _he
    cases e
    rfl

/-- C7 witness: the two declarations normalizing to `/admin/settings`
discharge the duplicate-path hypothesis. -/
theorem buildTable_duplicate_spec_witness :
    buildTable [⟨"/admin/settings", true⟩, ⟨"admin/settings/", true⟩] =
      .error .DuplicateRoute :=
  (buildTable_duplicate_spec [⟨"/admin/settings", true⟩, ⟨"admin/settings/", true⟩]
    (Or.inl (by decide))).1
